import Mathlib

/-!
Verification of `commonFeatureFinder.c` (phonetics common feature finder)
against its natural-language specification.

The C program maps phoneme codes (read as `int`) to articulatory feature
labels and folds a sequence of codes down to a common label per feature
dimension.  We embed each helper function of the source shallowly:

* codes are `Int` (the C type is `int`);
* a feature value of the source is a pair of strings, the second being the
  empty-string sentinel the C code uses for "no secondary label"
  (`char subPlace[20] = ""`);
* each `void f(int intArray[], int num)` helper becomes a function
  `List Int → Option String`: `some s` means the function reaches its final
  `printf` and prints the label `s`; `none` means it hits one of its bare
  `return;` statements and prints nothing.

The specification's generic two-level reducer of section 4.2 is embedded
separately (`specStep`, `specReduce`) from the spec's own words, with the
secondary label as an `Option String`, for the refinement claims.
-/

namespace CommonFeatureFinder

/-- A feature value as the C source represents it: a primary label and a
secondary label, where `""` is the sentinel for "no secondary". -/
abbrev FV := String × String

/-- A feature value as spec section 3 represents it: a primary label and an
optional secondary label. -/
abbrev FVo := String × Option String

/-- Reading of a source feature value as a spec feature value: the empty
sentinel secondary becomes `none`. -/
def toOpt (v : FV) : FVo := (v.1, if v.2 = "" then none else some v.2)

/-! ### Code → feature tables of the source

Each table is the if/else chain at the top of the corresponding helper's
loop body; `none` is the final `else { return ; }` ("out of range"). -/

/-- Place of articulation table, `conPlaceArticulation` src lines 90-132. -/
def conPlaceTable (c : Int) : Option FV :=
  if c = 1 ∨ c = 2 ∨ c = 3 then some ("Labial", "Bilabial")
  else if c = 4 ∨ c = 5 then some ("Labial", "Labiodental")
  else if c = 6 ∨ c = 7 then some ("Dental", "")
  else if c = 8 ∨ c = 9 ∨ c = 10 ∨ c = 11 ∨ c = 12 ∨ c = 13 ∨ c = 14 then
    some ("Alveolar", "")
  else if c = 15 ∨ c = 16 ∨ c = 17 ∨ c = 18 then some ("Alveopalatal", "")
  else if c = 19 then some ("Palatal", "")
  else if c = 20 ∨ c = 21 ∨ c = 22 then some ("Velar", "")
  else if c = 23 then some ("Labial", "Velar")
  else if c = 24 ∨ c = 25 then some ("Glottal", "")
  else none

/-- Manner of articulation table, `conMannerArticulation` src lines 197-228. -/
def conMannerTable (c : Int) : Option FV :=
  if c = 1 ∨ c = 2 ∨ c = 8 ∨ c = 9 ∨ c = 20 ∨ c = 21 ∨ c = 24 then
    some ("Stop", "")
  else if c = 3 ∨ c = 10 ∨ c = 22 then some ("Nasal", "Stop")
  else if c = 4 ∨ c = 5 ∨ c = 6 ∨ c = 7 ∨ c = 11 ∨ c = 12 ∨ c = 15 ∨ c = 16 ∨ c = 25 then
    some ("Fricative", "")
  else if c = 17 ∨ c = 18 then some ("Affricate", "")
  else if c = 13 ∨ c = 14 then some ("Liquid", "")
  else if c = 19 ∨ c = 23 then some ("Glide", "")
  else none

/-- Voicing table, `conVoicing` src lines 291-307; this dimension carries no
secondary label in the source, so the table maps to a bare string. -/
def conVoicingTable (c : Int) : Option String :=
  if c = 1 ∨ c = 4 ∨ c = 6 ∨ c = 8 ∨ c = 11 ∨ c = 15 ∨ c = 17 ∨ c = 20 ∨ c = 24 ∨ c = 25 then
    some "Voiceless"
  else if c = 2 ∨ c = 3 ∨ c = 5 ∨ c = 7 ∨ c = 9 ∨ c = 10 ∨ c = 12 ∨ c = 13 ∨ c = 14 ∨
          c = 16 ∨ c = 18 ∨ c = 19 ∨ c = 21 ∨ c = 22 ∨ c = 23 then
    some "Voiced"
  else none

/-- Height table, `vowHeight` src lines 340-356. -/
def vowHeightTable (c : Int) : Option String :=
  if c = 1 ∨ c = 2 ∨ c = 3 ∨ c = 4 then some "High"
  else if c = 5 ∨ c = 6 ∨ c = 7 ∨ c = 8 ∨ c = 9 ∨ c = 10 ∨ c = 11 then some "Mid"
  else if c = 12 ∨ c = 13 ∨ c = 14 ∨ c = 15 then some "Low"
  else none

/-- Backness table, `vowBackness` src lines 386-401. -/
def vowBacknessTable (c : Int) : Option String :=
  if c = 1 ∨ c = 2 ∨ c = 5 ∨ c = 6 ∨ c = 12 then some "Front"
  else if c = 7 ∨ c = 8 ∨ c = 13 ∨ c = 14 then some "Central"
  else if c = 3 ∨ c = 4 ∨ c = 9 ∨ c = 10 ∨ c = 11 ∨ c = 15 then some "Back"
  else none

/-- Tenseness table, `vowTenseness` src lines 431-444. -/
def vowTensenessTable (c : Int) : Option String :=
  if c = 1 ∨ c = 3 ∨ c = 5 ∨ c = 9 ∨ c = 10 ∨ c = 13 ∨ c = 14 ∨ c = 15 then
    some "Tensed"
  else if c = 2 ∨ c = 4 ∨ c = 6 ∨ c = 7 ∨ c = 8 ∨ c = 11 ∨ c = 12 then
    some "Laxed"
  else none

/-- Roundedness table, `vowRoundedness` src lines 474-487. -/
def vowRoundednessTable (c : Int) : Option String :=
  if c = 3 ∨ c = 4 ∨ c = 9 ∨ c = 10 ∨ c = 11 then some "Rounded"
  else if c = 1 ∨ c = 2 ∨ c = 5 ∨ c = 6 ∨ c = 7 ∨ c = 8 ∨ c = 12 ∨ c = 13 ∨ c = 14 ∨ c = 15 then
    some "Unrounded"
  else none

/-- Diphthong status table, `vowDiphthong` src lines 519-537. -/
def vowDiphthongTable (c : Int) : Option FV :=
  if c = 1 ∨ c = 2 ∨ c = 3 ∨ c = 4 ∨ c = 6 ∨ c = 7 ∨ c = 8 ∨ c = 11 ∨ c = 12 ∨ c = 15 then
    some ("Simple Vowel", "")
  else if c = 10 ∨ c = 13 ∨ c = 14 then some ("Diphthong", "Major Diphthong")
  else if c = 5 ∨ c = 9 then some ("Diphthong", "Minor Diphthong")
  else none

/-! ### The comparison step and loop of the source

`conPlaceArticulation`, `conMannerArticulation` and `vowDiphthong` repeat the
same comparison block verbatim (src lines 139-180, 235-276, 544-585), so we
embed it once and instantiate it with each function's table.  Likewise the
five functions without a secondary label share the single-equality compare
(src lines 313-322 etc.). -/

/-- One comparison of the two-level helpers: `prev` is
`(previousPlace, previousSubPlace)`, `v` is `(place, subPlace)`.  Mirrors
src lines 139-180: every successful branch also clears the running
secondary to `""`. -/
def cStep (prev v : FV) : Option FV :=
  if v.1 = prev.1 then some (v.1, "")
  else if ¬ prev.2 = "" ∧ ¬ v.2 = "" then
    if v.2 = prev.2 then some (v.2, "") else none
  else if ¬ prev.2 = "" then
    if v.1 = prev.2 then some (v.1, "") else none
  else if ¬ v.2 = "" then
    if v.2 = prev.1 then some (v.2, "") else none
  else none

/-- The `while (i < num)` loop of a two-level helper after the first
iteration: `prev` holds the running `(previous, previousSub)` pair; on loop
exit the helper prints the running primary label. -/
def cGo (table : Int → Option FV) : List Int → FV → Option String
  | [], prev => some prev.1
  | c :: rest, prev =>
    match table c with
    | none => none
    | some v =>
      match cStep prev v with
      | none => none
      | some prev2 => cGo table rest prev2

/-- A whole two-level helper: on the empty input the loop never runs and the
final `printf` prints the initial `previousPlace`, which is `""`; the first
code initialises the running pair (src lines 135-138). -/
def cReduce (table : Int → Option FV) : List Int → Option String
  | [] => some ""
  | c :: rest =>
    match table c with
    | none => none
    | some v => cGo table rest v

/-- The loop of a single-level helper (e.g. `conVoicing` src lines 309-322):
only the primary labels are compared for equality. -/
def cGo1 (table : Int → Option String) : List Int → String → Option String
  | [], prev => some prev
  | c :: rest, prev =>
    match table c with
    | none => none
    | some v => if v = prev then cGo1 table rest v else none

/-- A whole single-level helper; on the empty input it prints `""`. -/
def cReduce1 (table : Int → Option String) : List Int → Option String
  | [] => some ""
  | c :: rest =>
    match table c with
    | none => none
    | some v => cGo1 table rest v

/-! ### The eight helper functions of the source -/

/-- `conPlaceArticulation` (src lines 81-187). -/
def conPlaceArticulation (l : List Int) : Option String :=
  cReduce conPlaceTable l

/-- `conMannerArticulation` (src lines 189-283). -/
def conMannerArticulation (l : List Int) : Option String :=
  cReduce conMannerTable l

/-- `conVoicing` (src lines 285-329). -/
def conVoicing (l : List Int) : Option String :=
  cReduce1 conVoicingTable l

/-- `vowHeight` (src lines 334-378). -/
def vowHeight (l : List Int) : Option String :=
  cReduce1 vowHeightTable l

/-- `vowBackness` (src lines 380-423). -/
def vowBackness (l : List Int) : Option String :=
  cReduce1 vowBacknessTable l

/-- `vowTenseness` (src lines 425-466). -/
def vowTenseness (l : List Int) : Option String :=
  cReduce1 vowTensenessTable l

/-- `vowRoundedness` (src lines 468-509). -/
def vowRoundedness (l : List Int) : Option String :=
  cReduce1 vowRoundednessTable l

/-- `vowDiphthong` (src lines 511-592). -/
def vowDiphthong (l : List Int) : Option String :=
  cReduce vowDiphthongTable l

/-! ### The dispatcher of `main` (src lines 612-633) -/

/-- The class dispatch of `main`: selector `0` runs the three consonant
helpers in order, selector `1` the five vowel helpers, anything else prints
`Invalid Input` and returns without any dimension result (`none`).  The
returned list holds each helper's observable output, in call order. -/
def runMain (consonantVowel : Int) (l : List Int) : Option (List (Option String)) :=
  if consonantVowel = 0 then
    some [conPlaceArticulation l, conMannerArticulation l, conVoicing l]
  else if consonantVowel = 1 then
    some [vowHeight l, vowBackness l, vowTenseness l, vowRoundedness l, vowDiphthong l]
  else none

/-- The indices written by the input-collection loop of `main`
(src lines 607-610): `for (int i = 0; i < num; i++) scanf(..., &intArray[i])`
writes `intArray[i]` for every `0 ≤ i < num`, with `intArray` a 7-element
array. -/
def writeIndices (num : Int) : List Nat :=
  List.range num.toNat

/-! ### The generic two-level reducer of spec section 4.2

These definitions follow the spec's own words (with the secondary label an
`Option String`, as section 3 prescribes); the refinement claim compares the
source functions above against them. -/

/-- The comparison precedence of spec section 4.2 step 3, first match wins:
a. `Pi = Pc` gives `(Pc, none)`; b. `Sc` and `Si` both present and equal
gives `(Sc, none)`; c. `Sc` present and `Sc = Pi` gives `(Pi, none)`;
d. `Si` present and `Si = Pc` gives `(Si, none)`; e. otherwise fail. -/
def specStep (cur new : FVo) : Option FVo :=
  if new.1 = cur.1 then some (cur.1, none)
  else if cur.2.isSome ∧ new.2.isSome ∧ cur.2 = new.2 then some (cur.2.getD "", none)
  else if cur.2 = some new.1 then some (new.1, none)
  else if new.2 = some cur.1 then some (new.2.getD "", none)
  else none

/-- Spec section 4.2 steps 3-4: fold the comparison over the remaining
mapped values; on success the result is the running primary label. -/
def specGo : List FVo → FVo → Option String
  | [], cur => some cur.1
  | v :: rest, cur =>
    match specStep cur v with
    | none => none
    | some cur2 => specGo rest cur2

/-- Spec section 4.2 step 1: map each code to its feature value via the
table; a code with no entry aborts the whole reduction. -/
def mapCodes (table : Int → Option FVo) : List Int → Option (List FVo)
  | [] => some []
  | c :: rest =>
    match table c with
    | none => none
    | some v => (mapCodes table rest).map (v :: ·)

/-- The generic two-level reducer of spec section 4.2: map all codes, seed
the running value from the first, fold the comparison over the rest.  The
spec leaves the empty sequence undefined (section 4.3), so this definition
is only compared with the source on nonempty sequences. -/
def specReduce (table : Int → Option FVo) (l : List Int) : Option String :=
  match mapCodes table l with
  | none => none
  | some [] => none
  | some (v :: vs) => specGo vs v

/-! ### The feature tables of spec section 4.1, by the spec's words -/

/-- Spec 4.1, PlaceOfArticulation row. -/
def specPlaceTable (c : Int) : Option FVo :=
  if c = 1 ∨ c = 2 ∨ c = 3 then some ("Labial", some "Bilabial")
  else if c = 4 ∨ c = 5 then some ("Labial", some "Labiodental")
  else if c = 6 ∨ c = 7 then some ("Dental", none)
  else if c = 8 ∨ c = 9 ∨ c = 10 ∨ c = 11 ∨ c = 12 ∨ c = 13 ∨ c = 14 then
    some ("Alveolar", none)
  else if c = 15 ∨ c = 16 ∨ c = 17 ∨ c = 18 then some ("Alveopalatal", none)
  else if c = 19 then some ("Palatal", none)
  else if c = 20 ∨ c = 21 ∨ c = 22 then some ("Velar", none)
  else if c = 23 then some ("Labial", some "Velar")
  else if c = 24 ∨ c = 25 then some ("Glottal", none)
  else none

/-- Spec 4.1, MannerOfArticulation row. -/
def specMannerTable (c : Int) : Option FVo :=
  if c = 1 ∨ c = 2 ∨ c = 8 ∨ c = 9 ∨ c = 20 ∨ c = 21 ∨ c = 24 then
    some ("Stop", none)
  else if c = 3 ∨ c = 10 ∨ c = 22 then some ("Nasal", some "Stop")
  else if c = 4 ∨ c = 5 ∨ c = 6 ∨ c = 7 ∨ c = 11 ∨ c = 12 ∨ c = 15 ∨ c = 16 ∨ c = 25 then
    some ("Fricative", none)
  else if c = 17 ∨ c = 18 then some ("Affricate", none)
  else if c = 13 ∨ c = 14 then some ("Liquid", none)
  else if c = 19 ∨ c = 23 then some ("Glide", none)
  else none

/-- Spec 4.1, Voicing row (no secondary). -/
def specVoicingTable (c : Int) : Option FVo :=
  if c = 1 ∨ c = 4 ∨ c = 6 ∨ c = 8 ∨ c = 11 ∨ c = 15 ∨ c = 17 ∨ c = 20 ∨ c = 24 ∨ c = 25 then
    some ("Voiceless", none)
  else if c = 2 ∨ c = 3 ∨ c = 5 ∨ c = 7 ∨ c = 9 ∨ c = 10 ∨ c = 12 ∨ c = 13 ∨ c = 14 ∨
          c = 16 ∨ c = 18 ∨ c = 19 ∨ c = 21 ∨ c = 22 ∨ c = 23 then
    some ("Voiced", none)
  else none

/-- Spec 4.1, vowel Height row. -/
def specHeightTable (c : Int) : Option FVo :=
  if c = 1 ∨ c = 2 ∨ c = 3 ∨ c = 4 then some ("High", none)
  else if c = 5 ∨ c = 6 ∨ c = 7 ∨ c = 8 ∨ c = 9 ∨ c = 10 ∨ c = 11 then some ("Mid", none)
  else if c = 12 ∨ c = 13 ∨ c = 14 ∨ c = 15 then some ("Low", none)
  else none

/-- Spec 4.1, vowel Backness row. -/
def specBacknessTable (c : Int) : Option FVo :=
  if c = 1 ∨ c = 2 ∨ c = 5 ∨ c = 6 ∨ c = 12 then some ("Front", none)
  else if c = 7 ∨ c = 8 ∨ c = 13 ∨ c = 14 then some ("Central", none)
  else if c = 3 ∨ c = 4 ∨ c = 9 ∨ c = 10 ∨ c = 11 ∨ c = 15 then some ("Back", none)
  else none

/-- Spec 4.1, vowel Tenseness row. -/
def specTensenessTable (c : Int) : Option FVo :=
  if c = 1 ∨ c = 3 ∨ c = 5 ∨ c = 9 ∨ c = 10 ∨ c = 13 ∨ c = 14 ∨ c = 15 then
    some ("Tensed", none)
  else if c = 2 ∨ c = 4 ∨ c = 6 ∨ c = 7 ∨ c = 8 ∨ c = 11 ∨ c = 12 then
    some ("Laxed", none)
  else none

/-- Spec 4.1, vowel Roundedness row. -/
def specRoundednessTable (c : Int) : Option FVo :=
  if c = 3 ∨ c = 4 ∨ c = 9 ∨ c = 10 ∨ c = 11 then some ("Rounded", none)
  else if c = 1 ∨ c = 2 ∨ c = 5 ∨ c = 6 ∨ c = 7 ∨ c = 8 ∨ c = 12 ∨ c = 13 ∨ c = 14 ∨ c = 15 then
    some ("Unrounded", none)
  else none

/-- Spec 4.1, vowel DiphthongStatus row. -/
def specDiphthongTable (c : Int) : Option FVo :=
  if c = 1 ∨ c = 2 ∨ c = 3 ∨ c = 4 ∨ c = 6 ∨ c = 7 ∨ c = 8 ∨ c = 11 ∨ c = 12 ∨ c = 15 then
    some ("Simple Vowel", none)
  else if c = 10 ∨ c = 13 ∨ c = 14 then some ("Diphthong", some "Major Diphthong")
  else if c = 5 ∨ c = 9 then some ("Diphthong", some "Minor Diphthong")
  else none

/-! ### Table correspondence: the spec tables of 4.1 are exactly the source
tables read through `toOpt` -/

lemma place_table_corr (c : Int) : specPlaceTable c = (conPlaceTable c).map toOpt := by
  unfold specPlaceTable conPlaceTable
  split_ifs <;> rfl

lemma manner_table_corr (c : Int) : specMannerTable c = (conMannerTable c).map toOpt := by
  unfold specMannerTable conMannerTable
  split_ifs <;> rfl

/-- Reading of a bare-string table value as a spec feature value. -/
def toNoSub (s : String) : FVo := (s, none)

lemma voicing_table_corr (c : Int) :
    specVoicingTable c = (conVoicingTable c).map toNoSub := by
  unfold specVoicingTable conVoicingTable
  split_ifs <;> rfl

lemma height_table_corr (c : Int) :
    specHeightTable c = (vowHeightTable c).map toNoSub := by
  unfold specHeightTable vowHeightTable
  split_ifs <;> rfl

lemma backness_table_corr (c : Int) :
    specBacknessTable c = (vowBacknessTable c).map toNoSub := by
  unfold specBacknessTable vowBacknessTable
  split_ifs <;> rfl

lemma tenseness_table_corr (c : Int) :
    specTensenessTable c = (vowTensenessTable c).map toNoSub := by
  unfold specTensenessTable vowTensenessTable
  split_ifs <;> rfl

lemma roundedness_table_corr (c : Int) :
    specRoundednessTable c = (vowRoundednessTable c).map toNoSub := by
  unfold specRoundednessTable vowRoundednessTable
  split_ifs <;> rfl

lemma diphthong_table_corr (c : Int) :
    specDiphthongTable c = (vowDiphthongTable c).map toOpt := by
  unfold specDiphthongTable vowDiphthongTable
  split_ifs <;> rfl

/-! ### Table domains: exactly the class-scoped code ranges -/

lemma conPlaceTable_dom (c : Int) : (conPlaceTable c).isSome ↔ 1 ≤ c ∧ c ≤ 25 := by
  unfold conPlaceTable
  split_ifs <;> simp <;> omega

lemma conMannerTable_dom (c : Int) : (conMannerTable c).isSome ↔ 1 ≤ c ∧ c ≤ 25 := by
  unfold conMannerTable
  split_ifs <;> simp <;> omega

lemma conVoicingTable_dom (c : Int) : (conVoicingTable c).isSome ↔ 1 ≤ c ∧ c ≤ 25 := by
  unfold conVoicingTable
  split_ifs <;> simp <;> omega

lemma vowHeightTable_dom (c : Int) : (vowHeightTable c).isSome ↔ 1 ≤ c ∧ c ≤ 15 := by
  unfold vowHeightTable
  split_ifs <;> simp <;> omega

lemma vowBacknessTable_dom (c : Int) : (vowBacknessTable c).isSome ↔ 1 ≤ c ∧ c ≤ 15 := by
  unfold vowBacknessTable
  split_ifs <;> simp <;> omega

lemma vowTensenessTable_dom (c : Int) : (vowTensenessTable c).isSome ↔ 1 ≤ c ∧ c ≤ 15 := by
  unfold vowTensenessTable
  split_ifs <;> simp <;> omega

lemma vowRoundednessTable_dom (c : Int) : (vowRoundednessTable c).isSome ↔ 1 ≤ c ∧ c ≤ 15 := by
  unfold vowRoundednessTable
  split_ifs <;> simp <;> omega

lemma vowDiphthongTable_dom (c : Int) : (vowDiphthongTable c).isSome ↔ 1 ≤ c ∧ c ≤ 15 := by
  unfold vowDiphthongTable
  split_ifs <;> simp <;> omega

/-! ### Singleton inputs -/

lemma cReduce_single (table : Int → Option FV) (c : Int) (v : FV)
    (h : table c = some v) : cReduce table [c] = some v.1 := by
  simp only [cReduce, h]
  rfl

lemma cReduce1_single (table : Int → Option String) (c : Int) (s : String)
    (h : table c = some s) : cReduce1 table [c] = some s := by
  simp only [cReduce1, h]
  rfl

/-! ### Out-of-range codes anywhere in the input force a silent return -/

lemma cGo_oor (table : Int → Option FV) :
    ∀ (l : List Int) (prev : FV), (∃ c ∈ l, table c = none) →
      cGo table l prev = none := by
  intro l
  induction l with
  | nil => rintro prev ⟨c, hc, _⟩; cases hc
  | cons a rest ih =>
    rintro prev ⟨c, hc, hnone⟩
    simp only [cGo]
    rcases List.mem_cons.mp hc with rfl | hmem
    · rw [hnone]
    · cases ha : table a with
      | none => rfl
      | some v =>
        dsimp only
        cases hs : cStep prev v with
        | none => rfl
        | some prev2 =>
          dsimp only
          exact ih prev2 ⟨c, hmem, hnone⟩

lemma cReduce_oor (table : Int → Option FV) (l : List Int)
    (h : ∃ c ∈ l, table c = none) : cReduce table l = none := by
  cases l with
  | nil => obtain ⟨c, hc, _⟩ := h; cases hc
  | cons a rest =>
    simp only [cReduce]
    obtain ⟨c, hc, hnone⟩ := h
    rcases List.mem_cons.mp hc with rfl | hmem
    · rw [hnone]
    · cases ha : table a with
      | none => rfl
      | some v =>
        dsimp only
        exact cGo_oor table rest v ⟨c, hmem, hnone⟩

lemma cGo1_oor (table : Int → Option String) :
    ∀ (l : List Int) (prev : String), (∃ c ∈ l, table c = none) →
      cGo1 table l prev = none := by
  intro l
  induction l with
  | nil => rintro prev ⟨c, hc, _⟩; cases hc
  | cons a rest ih =>
    rintro prev ⟨c, hc, hnone⟩
    simp only [cGo1]
    rcases List.mem_cons.mp hc with rfl | hmem
    · rw [hnone]
    · cases ha : table a with
      | none => rfl
      | some v =>
        dsimp only
        by_cases hv : v = prev
        · simp only [hv, if_pos rfl]
          exact ih prev ⟨c, hmem, hnone⟩
        · simp only [if_neg hv]

lemma cReduce1_oor (table : Int → Option String) (l : List Int)
    (h : ∃ c ∈ l, table c = none) : cReduce1 table l = none := by
  cases l with
  | nil => obtain ⟨c, hc, _⟩ := h; cases hc
  | cons a rest =>
    simp only [cReduce1]
    obtain ⟨c, hc, hnone⟩ := h
    rcases List.mem_cons.mp hc with rfl | hmem
    · rw [hnone]
    · cases ha : table a with
      | none => rfl
      | some v =>
        dsimp only
        exact cGo1_oor table rest v ⟨c, hmem, hnone⟩

/-! ### Correspondence between the source loops and the spec reducer

The source compare block and the spec precedence differ in one spot: when
both secondaries are present but unequal, the source fails at once
(src lines 145-155) while the spec still tries rules c and d.  The two can
only disagree on a pair of table values with distinct primaries that both
carry a secondary, and in every one of the eight tables all values carrying
a secondary share one primary, so the disagreement is unreachable.  We
capture this with a per-dimension finite set of reachable running states and
check the step correspondence on it by evaluation. -/

/-- Step correspondence at a pair of states: the source compare and the spec
precedence produce the same outcome (up to `toOpt`), and the resulting
running state stays in `states`. -/
abbrev stepOKP (states : List FV) (s v : FV) : Prop :=
  (cStep s v).map toOpt = specStep (toOpt s) (toOpt v) ∧ (cStep s v).getD s ∈ states

/-- Every running state the place dimension can reach: the table values plus
the secondary labels promoted to primaries with the secondary cleared. -/
def placeStates : List FV :=
  [("Labial", "Bilabial"), ("Labial", "Labiodental"), ("Labial", "Velar"),
   ("Labial", ""), ("Bilabial", ""), ("Labiodental", ""),
   ("Dental", ""), ("Alveolar", ""), ("Alveopalatal", ""), ("Palatal", ""),
   ("Velar", ""), ("Glottal", "")]

/-- Every running state the manner dimension can reach. -/
def mannerStates : List FV :=
  [("Stop", ""), ("Nasal", "Stop"), ("Nasal", ""), ("Fricative", ""),
   ("Affricate", ""), ("Liquid", ""), ("Glide", "")]

/-- Every running state the diphthong dimension can reach. -/
def diphthongStates : List FV :=
  [("Simple Vowel", ""), ("Diphthong", "Major Diphthong"),
   ("Diphthong", "Minor Diphthong"), ("Diphthong", ""),
   ("Major Diphthong", ""), ("Minor Diphthong", "")]

lemma place_inv : ∀ s ∈ placeStates, ∀ v ∈ placeStates, stepOKP placeStates s v := by
  decide

lemma manner_inv : ∀ s ∈ mannerStates, ∀ v ∈ mannerStates, stepOKP mannerStates s v := by
  decide

lemma diphthong_inv :
    ∀ s ∈ diphthongStates, ∀ v ∈ diphthongStates, stepOKP diphthongStates s v := by
  decide

lemma place_range (c : Int) (v : FV) (h : conPlaceTable c = some v) :
    v ∈ placeStates := by
  unfold conPlaceTable at h
  split_ifs at h <;> cases h <;> decide

lemma manner_range (c : Int) (v : FV) (h : conMannerTable c = some v) :
    v ∈ mannerStates := by
  unfold conMannerTable at h
  split_ifs at h <;> cases h <;> decide

lemma diphthong_range (c : Int) (v : FV) (h : vowDiphthongTable c = some v) :
    v ∈ diphthongStates := by
  unfold vowDiphthongTable at h
  split_ifs at h <;> cases h <;> decide

lemma mapCodes_cons_none (sT : Int → Option FVo) (a : Int) (rest : List Int)
    (h : sT a = none) : mapCodes sT (a :: rest) = none := by
  simp [mapCodes, h]

lemma mapCodes_cons_some (sT : Int → Option FVo) (a : Int) (rest : List Int)
    (v : FVo) (h : sT a = some v) :
    mapCodes sT (a :: rest) = (mapCodes sT rest).map (v :: ·) := by
  simp [mapCodes, h]

lemma cGo_of_mapCodes_none (cT : Int → Option FV) (sT : Int → Option FVo)
    (hT : ∀ c, sT c = (cT c).map toOpt) :
    ∀ (l : List Int) (prev : FV), mapCodes sT l = none → cGo cT l prev = none := by
  intro l
  induction l with
  | nil => intro prev h; simp [mapCodes] at h
  | cons a rest ih =>
    intro prev h
    simp only [cGo]
    cases ha : cT a with
    | none => rfl
    | some v =>
      dsimp only
      have hsa : sT a = some (toOpt v) := by rw [hT a, ha]; rfl
      rw [mapCodes_cons_some sT a rest (toOpt v) hsa] at h
      cases hs : cStep prev v with
      | none => rfl
      | some prev2 =>
        dsimp only
        apply ih
        cases hm : mapCodes sT rest with
        | none => rfl
        | some vs => rw [hm] at h; simp at h

lemma goCorr (cT : Int → Option FV) (sT : Int → Option FVo) (states : List FV)
    (hT : ∀ c, sT c = (cT c).map toOpt)
    (hRange : ∀ c v, cT c = some v → v ∈ states)
    (hStep : ∀ s ∈ states, ∀ v ∈ states, stepOKP states s v) :
    ∀ (l : List Int) (prev : FV), prev ∈ states →
      ∀ vs, mapCodes sT l = some vs → cGo cT l prev = specGo vs (toOpt prev) := by
  intro l
  induction l with
  | nil =>
    intro prev _ vs hvs
    simp only [mapCodes, Option.some.injEq] at hvs
    subst hvs
    rfl
  | cons a rest ih =>
    intro prev hprev vs hvs
    cases ha : cT a with
    | none =>
      rw [mapCodes_cons_none sT a rest (by rw [hT a, ha]; rfl)] at hvs
      cases hvs
    | some v =>
      have hsa : sT a = some (toOpt v) := by rw [hT a, ha]; rfl
      rw [mapCodes_cons_some sT a rest (toOpt v) hsa] at hvs
      cases hm : mapCodes sT rest with
      | none => rw [hm] at hvs; cases hvs
      | some ws =>
        rw [hm] at hvs
        simp only [Option.map_some', Option.some.injEq] at hvs
        subst hvs
        obtain ⟨hcorr, hclos⟩ := hStep prev hprev v (hRange a v ha)
        simp only [cGo, ha]
        cases hs : cStep prev v with
        | none =>
          rw [hs] at hcorr
          simp only [Option.map_none'] at hcorr
          simp only [specGo, ← hcorr]
        | some prev2 =>
          rw [hs] at hcorr hclos
          simp only [Option.map_some'] at hcorr
          simp only [Option.getD_some] at hclos
          simp only [specGo, ← hcorr]
          exact ih prev2 hclos ws hm

lemma reduceCorr (cT : Int → Option FV) (sT : Int → Option FVo) (states : List FV)
    (hT : ∀ c, sT c = (cT c).map toOpt)
    (hRange : ∀ c v, cT c = some v → v ∈ states)
    (hStep : ∀ s ∈ states, ∀ v ∈ states, stepOKP states s v) :
    ∀ l : List Int, l ≠ [] → cReduce cT l = specReduce sT l := by
  intro l hl
  cases l with
  | nil => exact absurd rfl hl
  | cons a rest =>
    cases ha : cT a with
    | none =>
      have hsa : sT a = none := by rw [hT a, ha]; rfl
      simp only [cReduce, specReduce, ha, mapCodes_cons_none sT a rest hsa]
    | some v =>
      have hsa : sT a = some (toOpt v) := by rw [hT a, ha]; rfl
      simp only [cReduce, specReduce, ha, mapCodes_cons_some sT a rest (toOpt v) hsa]
      cases hm : mapCodes sT rest with
      | none =>
        simp only [hm, Option.map_none']
        exact cGo_of_mapCodes_none cT sT hT rest v hm
      | some ws =>
        simp only [hm, Option.map_some']
        exact goCorr cT sT states hT hRange hStep rest v (hRange a v ha) ws hm

/-! ### Correspondence for the single-level loops -/

lemma specStep_noSub (p q : String) :
    specStep (p, none) (q, none) = if q = p then some (p, none) else none := by
  simp [specStep]

lemma cGo1_of_mapCodes_none (cT : Int → Option String) (sT : Int → Option FVo)
    (hT : ∀ c, sT c = (cT c).map toNoSub) :
    ∀ (l : List Int) (prev : String), mapCodes sT l = none → cGo1 cT l prev = none := by
  intro l
  induction l with
  | nil => intro prev h; simp [mapCodes] at h
  | cons a rest ih =>
    intro prev h
    simp only [cGo1]
    cases ha : cT a with
    | none => rfl
    | some v =>
      dsimp only
      have hsa : sT a = some (toNoSub v) := by rw [hT a, ha]; rfl
      rw [mapCodes_cons_some sT a rest (toNoSub v) hsa] at h
      by_cases hv : v = prev
      · simp only [hv, if_pos rfl]
        apply ih
        cases hm : mapCodes sT rest with
        | none => rfl
        | some vs => rw [hm] at h; simp at h
      · simp only [if_neg hv]

lemma goCorr1 (cT : Int → Option String) (sT : Int → Option FVo)
    (hT : ∀ c, sT c = (cT c).map toNoSub) :
    ∀ (l : List Int) (prev : String) vs,
      mapCodes sT l = some vs → cGo1 cT l prev = specGo vs (prev, none) := by
  intro l
  induction l with
  | nil =>
    intro prev vs hvs
    simp only [mapCodes, Option.some.injEq] at hvs
    subst hvs
    rfl
  | cons a rest ih =>
    intro prev vs hvs
    cases ha : cT a with
    | none =>
      rw [mapCodes_cons_none sT a rest (by rw [hT a, ha]; rfl)] at hvs
      cases hvs
    | some v =>
      have hsa : sT a = some (toNoSub v) := by rw [hT a, ha]; rfl
      rw [mapCodes_cons_some sT a rest (toNoSub v) hsa] at hvs
      cases hm : mapCodes sT rest with
      | none => rw [hm] at hvs; cases hvs
      | some ws =>
        rw [hm] at hvs
        simp only [Option.map_some', Option.some.injEq] at hvs
        subst hvs
        simp only [cGo1, ha]
        simp only [specGo, toNoSub, specStep_noSub]
        by_cases hv : v = prev
        · subst hv
          simp only [if_pos rfl]
          exact ih v ws hm
        · simp only [if_neg hv]

lemma reduceCorr1 (cT : Int → Option String) (sT : Int → Option FVo)
    (hT : ∀ c, sT c = (cT c).map toNoSub) :
    ∀ l : List Int, l ≠ [] → cReduce1 cT l = specReduce sT l := by
  intro l hl
  cases l with
  | nil => exact absurd rfl hl
  | cons a rest =>
    cases ha : cT a with
    | none =>
      have hsa : sT a = none := by rw [hT a, ha]; rfl
      simp only [cReduce1, specReduce, ha, mapCodes_cons_none sT a rest hsa]
    | some v =>
      have hsa : sT a = some (toNoSub v) := by rw [hT a, ha]; rfl
      simp only [cReduce1, specReduce, ha, mapCodes_cons_some sT a rest (toNoSub v) hsa]
      cases hm : mapCodes sT rest with
      | none =>
        simp only [hm, Option.map_none']
        exact cGo1_of_mapCodes_none cT sT hT rest v hm
      | some ws =>
        simp only [hm, Option.map_some']
        exact goCorr1 cT sT hT rest v ws hm

/-! ### Symmetry of a single comparison

A single comparison is symmetric in its two operands, so two-element inputs
reduce to the same outcome in either order.  (Longer inputs need not, see
the counterexample for the ordering claim.) -/

lemma cStep_comm (v w : FV) : cStep v w = cStep w v := by
  obtain ⟨p, s⟩ := v
  obtain ⟨q, t⟩ := w
  unfold cStep
  dsimp only
  by_cases hpq : q = p
  · subst hpq
    simp
  · have hqp : ¬ p = q := fun h => hpq h.symm
    by_cases hs : s = "" <;> by_cases ht : t = ""
    · simp [hpq, hqp, hs, ht]
    · by_cases htp : t = p
      · simp [hpq, hqp, hs, ht, htp]
      · have hpt : ¬ p = t := fun h => htp h.symm
        simp [hpq, hqp, hs, ht, htp, hpt]
    · by_cases hsq : s = q
      · simp [hpq, hqp, hs, ht, hsq]
      · have hqs : ¬ q = s := fun h => hsq h.symm
        simp [hpq, hqp, hs, ht, hsq, hqs]
    · by_cases hst : t = s
      · subst hst
        simp [hpq, hqp, hs]
      · have hts : ¬ s = t := fun h => hst h.symm
        simp [hpq, hqp, hs, ht, hst, hts]

lemma cReduce_pair_comm (table : Int → Option FV) (a b : Int) :
    cReduce table [a, b] = cReduce table [b, a] := by
  simp only [cReduce]
  cases ha : table a <;> cases hb : table b <;> dsimp only <;> simp only [cGo, ha, hb]
  rw [cStep_comm]

lemma cReduce1_pair_comm (table : Int → Option String) (a b : Int) :
    cReduce1 table [a, b] = cReduce1 table [b, a] := by
  simp only [cReduce1]
  cases ha : table a <;> cases hb : table b <;> dsimp only <;> simp only [cGo1, ha, hb]
  rename_i v w
  by_cases hwv : w = v
  · subst hwv
    simp
  · have hvw : ¬ v = w := fun h => hwv h.symm
    simp [hwv, hvw]

/-! ### The eight per-dimension refinement instances -/

lemma conPlace_corr : ∀ l : List Int, l ≠ [] →
    conPlaceArticulation l = specReduce specPlaceTable l :=
  reduceCorr conPlaceTable specPlaceTable placeStates place_table_corr
    place_range place_inv

lemma conManner_corr : ∀ l : List Int, l ≠ [] →
    conMannerArticulation l = specReduce specMannerTable l :=
  reduceCorr conMannerTable specMannerTable mannerStates manner_table_corr
    manner_range manner_inv

lemma conVoicing_corr : ∀ l : List Int, l ≠ [] →
    conVoicing l = specReduce specVoicingTable l :=
  reduceCorr1 conVoicingTable specVoicingTable voicing_table_corr

lemma vowHeight_corr : ∀ l : List Int, l ≠ [] →
    vowHeight l = specReduce specHeightTable l :=
  reduceCorr1 vowHeightTable specHeightTable height_table_corr

lemma vowBackness_corr : ∀ l : List Int, l ≠ [] →
    vowBackness l = specReduce specBacknessTable l :=
  reduceCorr1 vowBacknessTable specBacknessTable backness_table_corr

lemma vowTenseness_corr : ∀ l : List Int, l ≠ [] →
    vowTenseness l = specReduce specTensenessTable l :=
  reduceCorr1 vowTensenessTable specTensenessTable tenseness_table_corr

lemma vowRoundedness_corr : ∀ l : List Int, l ≠ [] →
    vowRoundedness l = specReduce specRoundednessTable l :=
  reduceCorr1 vowRoundednessTable specRoundednessTable roundedness_table_corr

lemma vowDiphthong_corr : ∀ l : List Int, l ≠ [] →
    vowDiphthong l = specReduce specDiphthongTable l :=
  reduceCorr vowDiphthongTable specDiphthongTable diphthongStates
    diphthong_table_corr diphthong_range diphthong_inv

/-! ### Auxiliary facts used by the claim theorems -/

lemma eq_none_of_not_dom {α : Type} {o : Option α} {P : Prop}
    (hdom : o.isSome ↔ P) (h : ¬ P) : o = none := by
  cases o with
  | none => rfl
  | some v => exact absurd (hdom.mp rfl) h

/-! ### Claim theorems -/

/-- C1: for every nonempty input code sequence (the spec leaves the empty
sequence undefined), each of the eight per-dimension reduction functions of
the source computes exactly the generic two-level reduction of spec section
4.2 instantiated with that dimension's feature table of section 4.1: map
each code to its feature value, seed the running value from the first code,
apply the precedence a-e with first match winning, and on success report
the final running primary label. -/
theorem claim_C1_reduction_refines_spec : ∀ l : List Int, l ≠ [] →
    conPlaceArticulation l = specReduce specPlaceTable l ∧
    conMannerArticulation l = specReduce specMannerTable l ∧
    conVoicing l = specReduce specVoicingTable l ∧
    vowHeight l = specReduce specHeightTable l ∧
    vowBackness l = specReduce specBacknessTable l ∧
    vowTenseness l = specReduce specTensenessTable l ∧
    vowRoundedness l = specReduce specRoundednessTable l ∧
    vowDiphthong l = specReduce specDiphthongTable l :=
  fun l hl =>
    ⟨conPlace_corr l hl, conManner_corr l hl, conVoicing_corr l hl,
     vowHeight_corr l hl, vowBackness_corr l hl, vowTenseness_corr l hl,
     vowRoundedness_corr l hl, vowDiphthong_corr l hl⟩

/-- Witness for C1 at the concrete input `[4, 23]` (f, w): both the source
function and the spec reducer resolve place to `Labial`. -/
theorem claim_C1_witness :
    ([4, 23] : List Int) ≠ [] ∧
    conPlaceArticulation [4, 23] = specReduce specPlaceTable [4, 23] ∧
    specReduce specPlaceTable [4, 23] = some "Labial" :=
  ⟨by decide, (claim_C1_reduction_refines_spec [4, 23] (by decide)).1, by decide⟩

/-- C2 counterexample: the multiset `{23, 23, 20}` (w, w, k) is mutually
agreeing pairwise under place of articulation, yet the order `[23, 23, 20]`
fails while its permutation `[23, 20, 23]` resolves to `Velar`: after
`23, 23` rule a erases the running secondary, so `20` no longer matches. -/
theorem claim_C2_counterexample :
    conPlaceArticulation [23, 23] = some "Labial" ∧
    conPlaceArticulation [23, 20] = some "Velar" ∧
    conPlaceArticulation [20, 23] = some "Velar" ∧
    ([23, 23, 20] : List Int).Perm [23, 20, 23] ∧
    conPlaceArticulation [23, 20, 23] = some "Velar" ∧
    conPlaceArticulation [23, 23, 20] = none := by
  decide

/-- C2 amended: order does not affect the outcome of two-element inputs —
each comparison is symmetric in its operands — but for three or more
mutually agreeing codes the final outcome can depend on the order. -/
theorem claim_C2_pair_order_irrelevant : ∀ a b : Int,
    conPlaceArticulation [a, b] = conPlaceArticulation [b, a] ∧
    conMannerArticulation [a, b] = conMannerArticulation [b, a] ∧
    conVoicing [a, b] = conVoicing [b, a] ∧
    vowHeight [a, b] = vowHeight [b, a] ∧
    vowBackness [a, b] = vowBackness [b, a] ∧
    vowTenseness [a, b] = vowTenseness [b, a] ∧
    vowRoundedness [a, b] = vowRoundedness [b, a] ∧
    vowDiphthong [a, b] = vowDiphthong [b, a] :=
  fun a b =>
    ⟨cReduce_pair_comm conPlaceTable a b, cReduce_pair_comm conMannerTable a b,
     cReduce1_pair_comm conVoicingTable a b, cReduce1_pair_comm vowHeightTable a b,
     cReduce1_pair_comm vowBacknessTable a b, cReduce1_pair_comm vowTensenessTable a b,
     cReduce1_pair_comm vowRoundednessTable a b, cReduce_pair_comm vowDiphthongTable a b⟩

/-- C3: for every code, each of the eight code→feature mappings of the
source assigns exactly the primary and secondary labels of the spec 4.1
tables, and each consonant table is defined exactly on 1-25 and each vowel
table exactly on 1-15 (no other codes are mapped). -/
theorem claim_C3_tables_match_spec : ∀ c : Int,
    specPlaceTable c = (conPlaceTable c).map toOpt ∧
    specMannerTable c = (conMannerTable c).map toOpt ∧
    specVoicingTable c = (conVoicingTable c).map toNoSub ∧
    specHeightTable c = (vowHeightTable c).map toNoSub ∧
    specBacknessTable c = (vowBacknessTable c).map toNoSub ∧
    specTensenessTable c = (vowTensenessTable c).map toNoSub ∧
    specRoundednessTable c = (vowRoundednessTable c).map toNoSub ∧
    specDiphthongTable c = (vowDiphthongTable c).map toOpt ∧
    ((conPlaceTable c).isSome ↔ 1 ≤ c ∧ c ≤ 25) ∧
    ((conMannerTable c).isSome ↔ 1 ≤ c ∧ c ≤ 25) ∧
    ((conVoicingTable c).isSome ↔ 1 ≤ c ∧ c ≤ 25) ∧
    ((vowHeightTable c).isSome ↔ 1 ≤ c ∧ c ≤ 15) ∧
    ((vowBacknessTable c).isSome ↔ 1 ≤ c ∧ c ≤ 15) ∧
    ((vowTensenessTable c).isSome ↔ 1 ≤ c ∧ c ≤ 15) ∧
    ((vowRoundednessTable c).isSome ↔ 1 ≤ c ∧ c ≤ 15) ∧
    ((vowDiphthongTable c).isSome ↔ 1 ≤ c ∧ c ≤ 15) :=
  fun c =>
    ⟨place_table_corr c, manner_table_corr c, voicing_table_corr c,
     height_table_corr c, backness_table_corr c, tenseness_table_corr c,
     roundedness_table_corr c, diphthong_table_corr c,
     conPlaceTable_dom c, conMannerTable_dom c, conVoicingTable_dom c,
     vowHeightTable_dom c, vowBacknessTable_dom c, vowTensenessTable_dom c,
     vowRoundednessTable_dom c, vowDiphthongTable_dom c⟩

/-- C4: a single-code input with a code valid for the selected class makes
every dimension of that class resolve, and the reported label is the code's
primary label (never its secondary). -/
theorem claim_C4_singleton_primary : ∀ c : Int,
    (1 ≤ c → c ≤ 25 →
      (∃ v, conPlaceTable c = some v ∧ conPlaceArticulation [c] = some v.1) ∧
      (∃ v, conMannerTable c = some v ∧ conMannerArticulation [c] = some v.1) ∧
      (∃ s, conVoicingTable c = some s ∧ conVoicing [c] = some s)) ∧
    (1 ≤ c → c ≤ 15 →
      (∃ s, vowHeightTable c = some s ∧ vowHeight [c] = some s) ∧
      (∃ s, vowBacknessTable c = some s ∧ vowBackness [c] = some s) ∧
      (∃ s, vowTensenessTable c = some s ∧ vowTenseness [c] = some s) ∧
      (∃ s, vowRoundednessTable c = some s ∧ vowRoundedness [c] = some s) ∧
      (∃ v, vowDiphthongTable c = some v ∧ vowDiphthong [c] = some v.1)) := by
  intro c
  constructor
  · intro h1 h2
    obtain ⟨vp, hvp⟩ := Option.isSome_iff_exists.mp ((conPlaceTable_dom c).mpr ⟨h1, h2⟩)
    obtain ⟨vm, hvm⟩ := Option.isSome_iff_exists.mp ((conMannerTable_dom c).mpr ⟨h1, h2⟩)
    obtain ⟨sv, hsv⟩ := Option.isSome_iff_exists.mp ((conVoicingTable_dom c).mpr ⟨h1, h2⟩)
    exact ⟨⟨vp, hvp, cReduce_single conPlaceTable c vp hvp⟩,
           ⟨vm, hvm, cReduce_single conMannerTable c vm hvm⟩,
           ⟨sv, hsv, cReduce1_single conVoicingTable c sv hsv⟩⟩
  · intro h1 h2
    obtain ⟨sh, hsh⟩ := Option.isSome_iff_exists.mp ((vowHeightTable_dom c).mpr ⟨h1, h2⟩)
    obtain ⟨sb, hsb⟩ := Option.isSome_iff_exists.mp ((vowBacknessTable_dom c).mpr ⟨h1, h2⟩)
    obtain ⟨st, hst⟩ := Option.isSome_iff_exists.mp ((vowTensenessTable_dom c).mpr ⟨h1, h2⟩)
    obtain ⟨sr, hsr⟩ := Option.isSome_iff_exists.mp ((vowRoundednessTable_dom c).mpr ⟨h1, h2⟩)
    obtain ⟨vd, hvd⟩ := Option.isSome_iff_exists.mp ((vowDiphthongTable_dom c).mpr ⟨h1, h2⟩)
    exact ⟨⟨sh, hsh, cReduce1_single vowHeightTable c sh hsh⟩,
           ⟨sb, hsb, cReduce1_single vowBacknessTable c sb hsb⟩,
           ⟨st, hst, cReduce1_single vowTensenessTable c st hst⟩,
           ⟨sr, hsr, cReduce1_single vowRoundednessTable c sr hsr⟩,
           ⟨vd, hvd, cReduce_single vowDiphthongTable c vd hvd⟩⟩

/-- Witness for C4 at the concrete code `3` (consonant m / vowel u). -/
theorem claim_C4_witness :
    (∃ v, conPlaceTable 3 = some v ∧ conPlaceArticulation [3] = some v.1) ∧
    (∃ s, vowHeightTable 3 = some s ∧ vowHeight [3] = some s) :=
  ⟨((claim_C4_singleton_primary 3).1 (by decide) (by decide)).1,
   ((claim_C4_singleton_primary 3).2 (by decide) (by decide)).1⟩

/-- C5: an input containing a code outside the selected class's range makes
every dimension of that class produce no resolved label, while the
dispatcher still runs and reports each sibling dimension independently. -/
theorem claim_C5_out_of_range : ∀ l : List Int,
    ((∃ c ∈ l, ¬(1 ≤ c ∧ c ≤ 25)) →
      conPlaceArticulation l = none ∧ conMannerArticulation l = none ∧
      conVoicing l = none ∧ runMain 0 l = some [none, none, none]) ∧
    ((∃ c ∈ l, ¬(1 ≤ c ∧ c ≤ 15)) →
      vowHeight l = none ∧ vowBackness l = none ∧ vowTenseness l = none ∧
      vowRoundedness l = none ∧ vowDiphthong l = none ∧
      runMain 1 l = some [none, none, none, none, none]) := by
  intro l
  constructor
  · rintro ⟨c, hc, hrange⟩
    have hp : conPlaceArticulation l = none :=
      cReduce_oor conPlaceTable l ⟨c, hc, eq_none_of_not_dom (conPlaceTable_dom c) hrange⟩
    have hm : conMannerArticulation l = none :=
      cReduce_oor conMannerTable l ⟨c, hc, eq_none_of_not_dom (conMannerTable_dom c) hrange⟩
    have hv : conVoicing l = none :=
      cReduce1_oor conVoicingTable l ⟨c, hc, eq_none_of_not_dom (conVoicingTable_dom c) hrange⟩
    refine ⟨hp, hm, hv, ?_⟩
    simp [runMain, hp, hm, hv]
  · rintro ⟨c, hc, hrange⟩
    have hh : vowHeight l = none :=
      cReduce1_oor vowHeightTable l ⟨c, hc, eq_none_of_not_dom (vowHeightTable_dom c) hrange⟩
    have hb : vowBackness l = none :=
      cReduce1_oor vowBacknessTable l ⟨c, hc, eq_none_of_not_dom (vowBacknessTable_dom c) hrange⟩
    have ht : vowTenseness l = none :=
      cReduce1_oor vowTensenessTable l ⟨c, hc, eq_none_of_not_dom (vowTensenessTable_dom c) hrange⟩
    have hr : vowRoundedness l = none :=
      cReduce1_oor vowRoundednessTable l ⟨c, hc, eq_none_of_not_dom (vowRoundednessTable_dom c) hrange⟩
    have hd : vowDiphthong l = none :=
      cReduce_oor vowDiphthongTable l ⟨c, hc, eq_none_of_not_dom (vowDiphthongTable_dom c) hrange⟩
    refine ⟨hh, hb, ht, hr, hd, ?_⟩
    simp [runMain, hh, hb, ht, hr, hd]

/-- Witness for C5 at the concrete inputs `[1, 26]` (consonant class) and
`[0]` (vowel class). -/
theorem claim_C5_witness :
    runMain 0 [1, 26] = some [none, none, none] ∧
    runMain 1 [0] = some [none, none, none, none, none] :=
  ⟨((claim_C5_out_of_range [1, 26]).1 ⟨26, by decide, by decide⟩).2.2.2,
   ((claim_C5_out_of_range [0]).2 ⟨0, by decide, by decide⟩).2.2.2.2.2⟩

/-- C6: on the vowel codes `[5, 9]` (e, o) the diphthong dimension resolves
and reports the broad label `Diphthong`, not the shared finer subtype
`Minor Diphthong` that both codes carry as their secondary. -/
theorem claim_C6_minor_diphthong_pair :
    vowDiphthongTable 5 = some ("Diphthong", "Minor Diphthong") ∧
    vowDiphthongTable 9 = some ("Diphthong", "Minor Diphthong") ∧
    vowDiphthong [5, 9] = some "Diphthong" ∧
    ¬ vowDiphthong [5, 9] = some "Minor Diphthong" := by
  decide

/-- C7: for each valid class selector the dispatcher reports one result per
dimension of that class (3 for consonants, 5 for vowels), each equal to the
standalone run of that dimension's reducer on the same sequence — so one
dimension's failure cannot suppress or alter a sibling's result. -/
theorem claim_C7_dispatcher_independent : ∀ l : List Int,
    runMain 0 l = some [conPlaceArticulation l, conMannerArticulation l, conVoicing l] ∧
    (∃ rs, runMain 0 l = some rs ∧ rs.length = 3) ∧
    runMain 1 l = some [vowHeight l, vowBackness l, vowTenseness l, vowRoundedness l, vowDiphthong l] ∧
    (∃ rs, runMain 1 l = some rs ∧ rs.length = 5) := by
  intro l
  refine ⟨by simp [runMain],
          ⟨[conPlaceArticulation l, conMannerArticulation l, conVoicing l],
           by simp [runMain], rfl⟩,
          by simp [runMain],
          ⟨[vowHeight l, vowBackness l, vowTenseness l, vowRoundedness l, vowDiphthong l],
           by simp [runMain], rfl⟩⟩

/-- C8: any class selector other than 0 (consonant) and 1 (vowel) yields the
invalid-input outcome with no dimension results, whatever the input codes. -/
theorem claim_C8_invalid_selector : ∀ sel : Int, ¬ sel = 0 → ¬ sel = 1 →
    ∀ l : List Int, runMain sel l = none := by
  intro sel h0 h1 l
  simp [runMain, h0, h1]

/-- Witness for C8 at selector `2` and input `[1, 2]`. -/
theorem claim_C8_witness : runMain 2 [1, 2] = none :=
  claim_C8_invalid_selector 2 (by decide) (by decide) [1, 2]

/-- C9 counterexample: with collaborator-supplied count 8 the collection
loop writes index 7, which is outside the bounds of the 7-element
`intArray`, so not every write is in bounds. -/
theorem claim_C9_counterexample : 7 ∈ writeIndices 8 ∧ ¬ 7 < 7 := by
  decide

/-- C9 amended: the input array has fixed capacity 7, but the program does
not cap the collaborator-supplied count: the collection loop's writes all
fall within the 7-element array exactly when the count is at most 7; for
any larger count some write is out of bounds. -/
theorem claim_C9_writes_bounded_iff : ∀ num : Int,
    (∀ i ∈ writeIndices num, i < 7) ↔ num ≤ 7 := by
  intro num
  simp only [writeIndices, List.mem_range]
  constructor
  · intro h
    by_contra hgt
    have h7 : (7 : Nat) < num.toNat := by omega
    exact absurd (h 7 h7) (by omega)
  · intro h i hi
    omega

/-- C10: on the empty input sequence every dimension reducer of both
classes runs to completion and reports the empty string as the common
label, and the dispatcher reports exactly these per-dimension results. -/
theorem claim_C10_empty_input :
    conPlaceArticulation [] = some "" ∧ conMannerArticulation [] = some "" ∧
    conVoicing [] = some "" ∧ vowHeight [] = some "" ∧
    vowBackness [] = some "" ∧ vowTenseness [] = some "" ∧
    vowRoundedness [] = some "" ∧ vowDiphthong [] = some "" ∧
    runMain 0 [] = some [some "", some "", some ""] ∧
    runMain 1 [] = some [some "", some "", some "", some "", some ""] := by
  decide

end CommonFeatureFinder
